import Mathlib

/-!
Shallow embedding of the go-kafka-avro repository: the Confluent wire-format
codec (`AvroEncoder.Encode` in avroProducer.go, the envelope extraction of
`avroConsumer.ProcessAvroMsg` in avroConsumer.go), the schema-registry HTTP
retry/failover loop (`SchemaRegistryClient.httpCall` in schemaRegistry.go),
the caching layer (`CachedSchemaRegistryClient`), and the consumer loop's
per-record event order (`avroConsumer.Consume`).

Bytes are modelled as `List Nat` with each entry a byte value; Go's `int` is
modelled as `Int`, and the `uint32` conversion as `goUint32` (Euclidean mod
2^32, which agrees with Go's two's-complement truncation).
-/

/-- Go's `uint32(i)` conversion for an `int` value `i`: two's-complement
truncation to 32 bits. `Int.emod` with a positive modulus lands in
`[0, 2^32)`, which matches Go's conversion semantics. -/
def goUint32 (i : Int) : Nat := (i % (2 ^ 32 : Int)).toNat

/-- `binary.BigEndian.PutUint32` from encoding/binary: the four bytes
`v>>24, v>>16, v>>8, v`, each truncated to a byte, most significant first. -/
def bigEndianPutUint32 (v : Nat) : List Nat :=
  [v / 2 ^ 24 % 256, v / 2 ^ 16 % 256, v / 2 ^ 8 % 256, v % 256]

/-- `binary.BigEndian.Uint32` from encoding/binary: reads the first four
bytes of `b`, most significant first. In the source it is only applied to a
slice of exactly four bytes. -/
def bigEndianUint32 (b : List Nat) : Nat :=
  b.getD 3 0 + b.getD 2 0 * 2 ^ 8 + b.getD 1 0 * 2 ^ 16 + b.getD 0 0 * 2 ^ 24

/-- `AvroEncoder` from avroProducer.go: a schema id (Go `int`) and the
Avro-binary content bytes. -/
structure AvroEncoder where
  SchemaID : Int
  Content : List Nat

/-- `AvroEncoder.Encode` from avroProducer.go (lines 86-97): start from an
empty buffer, append the magic byte 0, append the four big-endian bytes of
`uint32(a.SchemaID)`, then append the content. The Go version also returns a
`nil` error; the error is elided because it is always `nil`. -/
def AvroEncoder.Encode (a : AvroEncoder) : List Nat :=
  let binaryMsg : List Nat := []
  let binaryMsg := binaryMsg ++ [0]
  let binarySchemaId := bigEndianPutUint32 (goUint32 a.SchemaID)
  let binaryMsg := binaryMsg ++ binarySchemaId
  let binaryMsg := binaryMsg ++ a.Content
  binaryMsg

/-- `AvroEncoder.Length` from avroProducer.go (lines 100-102). -/
def AvroEncoder.Length (a : AvroEncoder) : Nat := 5 + a.Content.length

/-- Outcome of the envelope extraction performed by
`avroConsumer.ProcessAvroMsg`: either a Go runtime panic (slice bounds out of
range) or the schema id together with the payload bytes. -/
inductive EnvelopeOutcome where
  | sliceBoundsPanic : EnvelopeOutcome
  | ok (schemaId : Nat) (payload : List Nat) : EnvelopeOutcome
deriving DecidableEq, Repr

/-- The envelope extraction of `avroConsumer.ProcessAvroMsg`
(avroConsumer.go lines 121-141): `schemaId := binary.BigEndian.Uint32(m.Value[1:5])`
and payload `m.Value[5:]`. There is no length check in the source: when the
value holds fewer than five bytes (capacity equal to length), the slice
expression `m.Value[1:5]` panics with a slice-bounds-out-of-range runtime
error, modelled by `sliceBoundsPanic`. -/
def processAvroMsgEnvelope (v : List Nat) : EnvelopeOutcome :=
  if v.length < 5 then EnvelopeOutcome.sliceBoundsPanic
  else EnvelopeOutcome.ok (bigEndianUint32 ((v.drop 1).take 4)) (v.drop 5)

lemma bigEndianUint32_putUint32 (v : Nat) (h : v < 2 ^ 32) :
    bigEndianUint32 (bigEndianPutUint32 v) = v := by
  unfold bigEndianUint32 bigEndianPutUint32
  simp only [List.getD_cons_zero, List.getD_cons_succ]
  omega

lemma goUint32_ofNat (i : Nat) (h : i < 2 ^ 32) : goUint32 (i : Int) = i := by
  unfold goUint32
  omega

lemma avroEncode_unfold (s : Int) (c : List Nat) :
    AvroEncoder.Encode ⟨s, c⟩ = 0 :: (bigEndianPutUint32 (goUint32 s) ++ c) := rfl

lemma avroEncode_length (s : Int) (c : List Nat) :
    (AvroEncoder.Encode ⟨s, c⟩).length = 5 + c.length := by
  rw [avroEncode_unfold]
  simp [bigEndianPutUint32]
  omega

/-- C1: for every schema id `i` in `[0, 2^32)` and payload `p`, the envelope
extraction of `ProcessAvroMsg` (big-endian u32 at bytes 1..5, payload at
bytes 5..) applied to `AvroEncoder.Encode` with `SchemaID i` and `Content p`
recovers exactly `(i, p)`. -/
theorem encode_processAvroMsg_roundtrip (i : Nat) (hi : i < 2 ^ 32) (p : List Nat) :
    processAvroMsgEnvelope (AvroEncoder.Encode ⟨(i : Int), p⟩) = EnvelopeOutcome.ok i p := by
  rw [avroEncode_unfold, goUint32_ofNat i hi]
  have hlen : ¬ (0 :: (bigEndianPutUint32 i ++ p)).length < 5 := by
    simp [bigEndianPutUint32]
  rw [processAvroMsgEnvelope, if_neg hlen]
  have hdrop1 : ((0 :: (bigEndianPutUint32 i ++ p)).drop 1).take 4
      = bigEndianPutUint32 i := by
    simp [bigEndianPutUint32]
  have hdrop5 : (0 :: (bigEndianPutUint32 i ++ p)).drop 5 = p := by
    simp [bigEndianPutUint32]
  rw [hdrop1, hdrop5, bigEndianUint32_putUint32 i hi]

/-- Witness for C1 at `i = 1`, `p = [42]`. -/
theorem encode_processAvroMsg_roundtrip_witness :
    processAvroMsgEnvelope (AvroEncoder.Encode ⟨(1 : Int), [42]⟩) = EnvelopeOutcome.ok 1 [42] :=
  encode_processAvroMsg_roundtrip 1 (by decide) [42]

/-- C2: on every input shorter than five bytes the envelope extraction of
`ProcessAvroMsg` hits the out-of-range slice `m.Value[1:5]` and panics; it
does not return an error value of any kind. -/
theorem processAvroMsg_short_input_panics (v : List Nat) (h : v.length < 5) :
    processAvroMsgEnvelope v = EnvelopeOutcome.sliceBoundsPanic := by
  simp [processAvroMsgEnvelope, h]

/-- Witness for C2 at the three-byte input `[0, 0, 1]`. -/
theorem processAvroMsg_short_input_panics_witness :
    processAvroMsgEnvelope [0, 0, 1] = EnvelopeOutcome.sliceBoundsPanic :=
  processAvroMsg_short_input_panics [0, 0, 1] (by decide)

/-- C3: for every non-negative schema id and any content, `Encode` produces
the byte 0, then the four big-endian bytes of the id (once the id fits in 32
bits), then the content; its length is `5 + len(Content)`, equals
`Length()`, and is at least 5 even for empty content. -/
theorem avroEncoder_encode_layout (id : Int) (c : List Nat) (hid : 0 ≤ id) :
    (AvroEncoder.Encode ⟨id, c⟩).length = 5 + c.length ∧
    (AvroEncoder.Encode ⟨id, c⟩).length = AvroEncoder.Length ⟨id, c⟩ ∧
    5 ≤ (AvroEncoder.Encode ⟨id, c⟩).length ∧
    (id < 2 ^ 32 → AvroEncoder.Encode ⟨id, c⟩ = 0 :: (bigEndianPutUint32 id.toNat ++ c)) := by
  refine ⟨avroEncode_length id c, ?_, ?_, ?_⟩
  · rw [avroEncode_length id c]; simp [AvroEncoder.Length]
  · rw [avroEncode_length id c]; omega
  · intro hlt
    rw [avroEncode_unfold]
    have hg : goUint32 id = id.toNat := by
      unfold goUint32
      omega
    rw [hg]

/-- Witness for C3 at `id = 1`, `c = [7]`. -/
theorem avroEncoder_encode_layout_witness :
    (AvroEncoder.Encode ⟨(1 : Int), [7]⟩).length = 5 + [7].length ∧
    (AvroEncoder.Encode ⟨(1 : Int), [7]⟩).length = AvroEncoder.Length ⟨(1 : Int), [7]⟩ ∧
    5 ≤ (AvroEncoder.Encode ⟨(1 : Int), [7]⟩).length ∧
    ((1 : Int) < 2 ^ 32 →
      AvroEncoder.Encode ⟨(1 : Int), [7]⟩ = 0 :: (bigEndianPutUint32 (1 : Int).toNat ++ [7])) :=
  avroEncoder_encode_layout 1 [7] (by decide)

/-- Outcome of one HTTP attempt (`client.httpClient.Do(req)` in
`SchemaRegistryClient.httpCall`): either the transport-level call failed
outright (`err != nil`, carrying the error message), or it produced a
response with a status code and a body. -/
inductive AttemptResult where
  | transportFailure (emsg : String) : AttemptResult
  | response (status : Nat) (body : String) : AttemptResult
deriving DecidableEq, Repr

/-- Result of `SchemaRegistryClient.httpCall`: the body on a 2xx-3xx
response, a transport error when the final attempt failed outright, or the
registry error built by `newError(resp)` from the final response (modelled by
its status and body). -/
inductive HttpOutcome where
  | success (body : String) : HttpOutcome
  | transportFailure (emsg : String) : HttpOutcome
  | registryFailure (status : Nat) (body : String) : HttpOutcome
deriving DecidableEq, Repr

/-- `retriable` from schemaRegistry.go (lines 254-256):
`resp.StatusCode >= 500 && resp.StatusCode < 600`. -/
def retriable (status : Nat) : Bool :=
  decide (500 ≤ status) && decide (status < 600)

/-- `okStatus` from schemaRegistry.go (lines 258-260):
`resp.StatusCode >= 200 && resp.StatusCode < 400`. -/
def okStatus (status : Nat) : Bool :=
  decide (200 ≤ status) && decide (status < 400)

/-- The URL targeted by attempt `i`:
`client.SchemaRegistryConnect[(i+offset)%nServers]` in the source (the fixed
request path `uri` is elided, being the same on every attempt). -/
def attemptUrl (endpoints : List String) (offset i : Nat) : String :=
  endpoints.getD ((i + offset) % endpoints.length) ""

/-- The `for i := 0; ; i++` loop of `SchemaRegistryClient.httpCall`
(schemaRegistry.go lines 226-252), from attempt index `i` on. The attempt
targets `endpoints[(i+offset) mod len(endpoints)]`; its outcome is given by
the oracle `oracle` (attempt index and URL). Per the source, the loop
continues iff `i < retries && (err != nil || retriable(resp))`; otherwise a
transport error is returned as-is, a non-2xx/3xx status becomes
`newError(resp)`, and an ok status returns the body. Besides the outcome it
returns the list of URLs attempted, in order (one entry per HTTP request
issued). -/
def httpCallAux (endpoints : List String) (retries : Nat)
    (oracle : Nat → String → AttemptResult) (offset : Nat) (i : Nat) :
    HttpOutcome × List String :=
  let url := attemptUrl endpoints offset i
  match oracle i url with
  | AttemptResult.transportFailure emsg =>
      if h : i < retries then
        let rest := httpCallAux endpoints retries oracle offset (i + 1)
        (rest.1, url :: rest.2)
      else (HttpOutcome.transportFailure emsg, [url])
  | AttemptResult.response status body =>
      if h : i < retries ∧ retriable status = true then
        let rest := httpCallAux endpoints retries oracle offset (i + 1)
        (rest.1, url :: rest.2)
      else if okStatus status then (HttpOutcome.success body, [url])
      else (HttpOutcome.registryFailure status body, [url])
termination_by retries - i
decreasing_by
  · omega
  · have := h.1; omega

/-- `SchemaRegistryClient.httpCall`: the loop started at attempt 0, after
`offset := rand.Intn(nServers)` picked a random starting index. -/
def httpCall (endpoints : List String) (retries : Nat)
    (oracle : Nat → String → AttemptResult) (offset : Nat) :
    HttpOutcome × List String :=
  httpCallAux endpoints retries oracle offset 0

lemma okStatus_not_retriable (s : Nat) (h : okStatus s = true) : retriable s = false := by
  simp only [okStatus, Bool.and_eq_true, decide_eq_true_eq] at h
  have h5 : ¬ (500 ≤ s) := by omega
  simp [retriable, decide_eq_false h5]

lemma httpCallAux_retry_transport (endpoints : List String) (r : Nat)
    (oracle : Nat → String → AttemptResult) (offset i : Nat) (e : String)
    (h1 : i < r)
    (h2 : oracle i (attemptUrl endpoints offset i) = AttemptResult.transportFailure e) :
    httpCallAux endpoints r oracle offset i =
      ((httpCallAux endpoints r oracle offset (i + 1)).1,
        attemptUrl endpoints offset i :: (httpCallAux endpoints r oracle offset (i + 1)).2) := by
  conv_lhs => unfold httpCallAux
  simp [h1, h2]

lemma httpCallAux_final_transport (endpoints : List String) (r : Nat)
    (oracle : Nat → String → AttemptResult) (offset i : Nat) (e : String)
    (h1 : ¬ i < r)
    (h2 : oracle i (attemptUrl endpoints offset i) = AttemptResult.transportFailure e) :
    httpCallAux endpoints r oracle offset i =
      (HttpOutcome.transportFailure e, [attemptUrl endpoints offset i]) := by
  unfold httpCallAux
  simp [h1, h2]

lemma httpCallAux_retry_response (endpoints : List String) (r : Nat)
    (oracle : Nat → String → AttemptResult) (offset i : Nat) (s : Nat) (b : String)
    (h1 : i < r)
    (h2 : oracle i (attemptUrl endpoints offset i) = AttemptResult.response s b)
    (h3 : retriable s = true) :
    httpCallAux endpoints r oracle offset i =
      ((httpCallAux endpoints r oracle offset (i + 1)).1,
        attemptUrl endpoints offset i :: (httpCallAux endpoints r oracle offset (i + 1)).2) := by
  conv_lhs => unfold httpCallAux
  simp [h1, h2, h3]

lemma httpCallAux_terminal_response (endpoints : List String) (r : Nat)
    (oracle : Nat → String → AttemptResult) (offset i : Nat) (s : Nat) (b : String)
    (h2 : oracle i (attemptUrl endpoints offset i) = AttemptResult.response s b)
    (h3 : ¬ (i < r ∧ retriable s = true)) :
    httpCallAux endpoints r oracle offset i =
      if okStatus s = true then (HttpOutcome.success b, [attemptUrl endpoints offset i])
      else (HttpOutcome.registryFailure s b, [attemptUrl endpoints offset i]) := by
  conv_lhs => unfold httpCallAux
  simp [h2, h3]

lemma httpCallAux_all5xx (endpoints : List String) (r : Nat)
    (oracle : Nat → String → AttemptResult) (offset : Nat)
    (hall : ∀ i url, ∃ s b, oracle i url = AttemptResult.response s b ∧ 500 ≤ s ∧ s < 600) :
    ∀ n i, r - i = n → i ≤ r →
      (httpCallAux endpoints r oracle offset i).2.length = r - i + 1 ∧
      ∃ s b, oracle r (attemptUrl endpoints offset r) = AttemptResult.response s b ∧
        (httpCallAux endpoints r oracle offset i).1 = HttpOutcome.registryFailure s b := by
  intro n
  induction n with
  | zero =>
      intro i hn hi
      have hir : i = r := by omega
      subst hir
      obtain ⟨s, b, hor, hs1, hs2⟩ := hall i (attemptUrl endpoints offset i)
      have hok : okStatus s = false := by
        have hlt : ¬ (s < 400) := by omega
        simp [okStatus, decide_eq_false hlt]
      have h3 : ¬ (i < i ∧ retriable s = true) := by simp
      have hterm := httpCallAux_terminal_response endpoints i oracle offset i s b hor h3
      rw [hterm, if_neg (by simp [hok])]
      exact ⟨by simp, s, b, hor, rfl⟩
  | succ n ih =>
      intro i hn hi
      have hilt : i < r := by omega
      obtain ⟨s, b, hor, hs1, hs2⟩ := hall i (attemptUrl endpoints offset i)
      have hretr : retriable s = true := by
        simp [retriable, decide_eq_true_eq]
        omega
      rw [httpCallAux_retry_response endpoints r oracle offset i s b hilt hor hretr]
      obtain ⟨hlen, s2, b2, hor2, hout⟩ := ih (i + 1) (by omega) (by omega)
      refine ⟨?_, s2, b2, hor2, hout⟩
      simp [hlen]
      omega

/-- C4: when every endpoint answers every attempt with a 5xx status, a call
with `maxRetries = r` makes exactly `r + 1` attempts (one per URL in the
attempt trace) and surfaces the registry error built from the response
observed on the last attempt, attempt number `r`. -/
theorem httpCall_all5xx_retry_bound (endpoints : List String) (r offset : Nat)
    (oracle : Nat → String → AttemptResult)
    (hoff : offset < endpoints.length)
    (hall : ∀ i url, ∃ s b, oracle i url = AttemptResult.response s b ∧ 500 ≤ s ∧ s < 600) :
    (httpCall endpoints r oracle offset).2.length = r + 1 ∧
    ∃ s b, oracle r (attemptUrl endpoints offset r) = AttemptResult.response s b ∧
      (httpCall endpoints r oracle offset).1 = HttpOutcome.registryFailure s b := by
  have h := httpCallAux_all5xx endpoints r oracle offset hall r 0 (by omega) (by omega)
  simpa [httpCall] using h

/-- Witness for C4: one endpoint always answering 500, `maxRetries = 2`,
three attempts in total, final outcome the error of attempt 2. -/
theorem httpCall_all5xx_retry_bound_witness :
    (httpCall ["http://a"] 2 (fun _ _ => AttemptResult.response 500 "boom") 0).2.length = 2 + 1 ∧
    ∃ s b, (fun (_ : Nat) (_ : String) => AttemptResult.response 500 "boom") 2
        (attemptUrl ["http://a"] 0 2) = AttemptResult.response s b ∧
      (httpCall ["http://a"] 2 (fun _ _ => AttemptResult.response 500 "boom") 0).1 =
        HttpOutcome.registryFailure s b :=
  httpCall_all5xx_retry_bound ["http://a"] 2 0 (fun _ _ => AttemptResult.response 500 "boom")
    (by decide) (fun _ _ => ⟨500, "boom", rfl, by omega⟩)

lemma httpCallAux_trace_nonempty (endpoints : List String) (r : Nat)
    (oracle : Nat → String → AttemptResult) (offset i : Nat) :
    1 ≤ (httpCallAux endpoints r oracle offset i).2.length := by
  rcases hor : oracle i (attemptUrl endpoints offset i) with e | ⟨s, b⟩
  · by_cases h1 : i < r
    · rw [httpCallAux_retry_transport endpoints r oracle offset i e h1 hor]; simp
    · rw [httpCallAux_final_transport endpoints r oracle offset i e h1 hor]; simp
  · by_cases h1 : i < r ∧ retriable s = true
    · rw [httpCallAux_retry_response endpoints r oracle offset i s b h1.1 hor h1.2]; simp
    · rw [httpCallAux_terminal_response endpoints r oracle offset i s b hor h1]
      by_cases h2 : okStatus s = true <;> simp [h2]

/-- C5: full characterization of one step of `httpCall`'s loop at attempt
`i`. (a) A further attempt is made iff `i < retries` and the attempt either
failed at the transport level or got a 5xx response; (b) in that case the
loop moves on to attempt `i+1` and prepends the current URL to the trace;
(c) a response outside 200-399 that is not retried returns the registry
error for that response immediately, with no further attempt; (d) a 200-399
response ends the call successfully with its body, with no further attempt. -/
theorem httpCall_retry_characterization (endpoints : List String) (r : Nat)
    (oracle : Nat → String → AttemptResult) (offset i : Nat) :
    (1 < (httpCallAux endpoints r oracle offset i).2.length ↔
      (i < r ∧ ((∃ e, oracle i (attemptUrl endpoints offset i) = AttemptResult.transportFailure e) ∨
        (∃ s b, oracle i (attemptUrl endpoints offset i) = AttemptResult.response s b ∧
          retriable s = true)))) ∧
    (∀ h1 : i < r,
      (∃ e, oracle i (attemptUrl endpoints offset i) = AttemptResult.transportFailure e) ∨
        (∃ s b, oracle i (attemptUrl endpoints offset i) = AttemptResult.response s b ∧
          retriable s = true) →
      httpCallAux endpoints r oracle offset i =
        ((httpCallAux endpoints r oracle offset (i + 1)).1,
          attemptUrl endpoints offset i :: (httpCallAux endpoints r oracle offset (i + 1)).2)) ∧
    (∀ s b, oracle i (attemptUrl endpoints offset i) = AttemptResult.response s b →
      ¬ (i < r ∧ retriable s = true) → okStatus s = false →
      httpCallAux endpoints r oracle offset i =
        (HttpOutcome.registryFailure s b, [attemptUrl endpoints offset i])) ∧
    (∀ s b, oracle i (attemptUrl endpoints offset i) = AttemptResult.response s b →
      okStatus s = true →
      httpCallAux endpoints r oracle offset i =
        (HttpOutcome.success b, [attemptUrl endpoints offset i])) := by
  have hstepB : ∀ h1 : i < r,
      (∃ e, oracle i (attemptUrl endpoints offset i) = AttemptResult.transportFailure e) ∨
        (∃ s b, oracle i (attemptUrl endpoints offset i) = AttemptResult.response s b ∧
          retriable s = true) →
      httpCallAux endpoints r oracle offset i =
        ((httpCallAux endpoints r oracle offset (i + 1)).1,
          attemptUrl endpoints offset i :: (httpCallAux endpoints r oracle offset (i + 1)).2) := by
    intro h1 hcond
    rcases hcond with ⟨e, hor⟩ | ⟨s, b, hor, hretr⟩
    · exact httpCallAux_retry_transport endpoints r oracle offset i e h1 hor
    · exact httpCallAux_retry_response endpoints r oracle offset i s b h1 hor hretr
  have hstepC : ∀ s b, oracle i (attemptUrl endpoints offset i) = AttemptResult.response s b →
      ¬ (i < r ∧ retriable s = true) → okStatus s = false →
      httpCallAux endpoints r oracle offset i =
        (HttpOutcome.registryFailure s b, [attemptUrl endpoints offset i]) := by
    intro s b hor h3 hok
    rw [httpCallAux_terminal_response endpoints r oracle offset i s b hor h3,
      if_neg (by simp [hok])]
  have hstepD : ∀ s b, oracle i (attemptUrl endpoints offset i) = AttemptResult.response s b →
      okStatus s = true →
      httpCallAux endpoints r oracle offset i =
        (HttpOutcome.success b, [attemptUrl endpoints offset i]) := by
    intro s b hor hok
    have h3 : ¬ (i < r ∧ retriable s = true) := by
      simp [okStatus_not_retriable s hok]
    rw [httpCallAux_terminal_response endpoints r oracle offset i s b hor h3, if_pos hok]
  refine ⟨⟨?_, ?_⟩, hstepB, hstepC, hstepD⟩
  · intro hlong
    rcases hor : oracle i (attemptUrl endpoints offset i) with e | ⟨s, b⟩
    · by_cases h1 : i < r
      · exact ⟨h1, Or.inl ⟨e, rfl⟩⟩
      · rw [httpCallAux_final_transport endpoints r oracle offset i e h1 hor] at hlong
        simp at hlong
    · by_cases h1 : i < r ∧ retriable s = true
      · exact ⟨h1.1, Or.inr ⟨s, b, rfl, h1.2⟩⟩
      · rw [httpCallAux_terminal_response endpoints r oracle offset i s b hor h1] at hlong
        by_cases h2 : okStatus s = true <;> simp [h2] at hlong
  · intro ⟨h1, hcond⟩
    rw [hstepB h1 hcond]
    have := httpCallAux_trace_nonempty endpoints r oracle offset (i + 1)
    simp
    omega

/-- Witness for C5: a single endpoint answering 200 with body outcome, at
attempt 0 with one retry allowed; part (d) of the characterization applies
and the call succeeds immediately with one attempt. -/
theorem httpCall_retry_characterization_witness :
    httpCallAux ["http://a"] 1 (fun _ _ => AttemptResult.response 200 "body") 0 0 =
      (HttpOutcome.success "body", [attemptUrl ["http://a"] 0 0]) :=
  (httpCall_retry_characterization ["http://a"] 1
    (fun _ _ => AttemptResult.response 200 "body") 0 0).2.2.2 200 "body" rfl (by decide)

lemma httpCallAux_trace_targets (endpoints : List String) (r : Nat)
    (oracle : Nat → String → AttemptResult) (offset : Nat) :
    ∀ n i j, r - i = n → j < (httpCallAux endpoints r oracle offset i).2.length →
      (httpCallAux endpoints r oracle offset i).2.getD j ("") =
        attemptUrl endpoints offset (i + j) := by
  intro n
  induction n with
  | zero =>
      intro i j hn hj
      have h1 : ¬ i < r := by omega
      rcases hor : oracle i (attemptUrl endpoints offset i) with e | ⟨s, b⟩
      · rw [httpCallAux_final_transport endpoints r oracle offset i e h1 hor] at hj ⊢
        simp at hj
        subst hj
        simp
      · have h3 : ¬ (i < r ∧ retriable s = true) := fun hc => h1 hc.1
        rw [httpCallAux_terminal_response endpoints r oracle offset i s b hor h3] at hj ⊢
        by_cases h2 : okStatus s = true
        · rw [if_pos h2] at hj ⊢
          simp at hj
          subst hj
          simp
        · rw [if_neg h2] at hj ⊢
          simp at hj
          subst hj
          simp
  | succ n ih =>
      intro i j hn hj
      by_cases h1 : i < r
      · rcases hor : oracle i (attemptUrl endpoints offset i) with e | ⟨s, b⟩
        · rw [httpCallAux_retry_transport endpoints r oracle offset i e h1 hor] at hj ⊢
          cases j with
          | zero => simp
          | succ j =>
              simp only [List.getD_cons_succ]
              have hj2 : j < (httpCallAux endpoints r oracle offset (i + 1)).2.length := by
                simp at hj
                omega
              rw [ih (i + 1) j (by omega) hj2]
              congr 1
              omega
        · by_cases hretr : retriable s = true
          · rw [httpCallAux_retry_response endpoints r oracle offset i s b h1 hor hretr]
              at hj ⊢
            cases j with
            | zero => simp
            | succ j =>
                simp only [List.getD_cons_succ]
                have hj2 : j < (httpCallAux endpoints r oracle offset (i + 1)).2.length := by
                  simp at hj
                  omega
                rw [ih (i + 1) j (by omega) hj2]
                congr 1
                omega
          · have h3 : ¬ (i < r ∧ retriable s = true) := fun hc => hretr hc.2
            rw [httpCallAux_terminal_response endpoints r oracle offset i s b hor h3] at hj ⊢
            by_cases h2 : okStatus s = true
            · rw [if_pos h2] at hj ⊢
              simp at hj
              subst hj
              simp
            · rw [if_neg h2] at hj ⊢
              simp at hj
              subst hj
              simp
      · exact absurd hn (by omega)

/-- C6: (1) attempt number `j` of `httpCall` targets
`endpoints[(offset + j) mod N]` (stated over the trace of attempted URLs);
(2) consequently, with two endpoints where `A` is unreachable (transport
failure) and `B` answers with an ok status, the call succeeds with `B`'s
body for every random starting offset, provided at least one retry is
allowed. -/
theorem httpCall_targets_and_failover :
    (∀ (endpoints : List String) (r : Nat) (oracle : Nat → String → AttemptResult)
        (offset j : Nat),
      j < (httpCall endpoints r oracle offset).2.length →
      (httpCall endpoints r oracle offset).2.getD j ("") =
        endpoints.getD ((offset + j) % endpoints.length) ("")) ∧
    (∀ (A B emsg bdy : String) (s r offset : Nat) (f : String → AttemptResult),
      f A = AttemptResult.transportFailure emsg →
      f B = AttemptResult.response s bdy →
      okStatus s = true → 1 ≤ r → offset < 2 →
      (httpCall [A, B] r (fun _ url => f url) offset).1 = HttpOutcome.success bdy) := by
  constructor
  · intro endpoints r oracle offset j hj
    have h := httpCallAux_trace_targets endpoints r oracle offset (r - 0) 0 j rfl hj
    simp only [Nat.zero_add] at h
    rw [show httpCall endpoints r oracle offset
        = httpCallAux endpoints r oracle offset 0 from rfl, h]
    unfold attemptUrl
    rw [Nat.add_comm j offset]
  · intro A B emsg bdy s r offset f hA hB hok hr hoff
    have hretr := okStatus_not_retriable s hok
    interval_cases offset
    · have hr0 : 0 < r := by omega
      have hor0 : (fun (_ : Nat) url => f url) 0 (attemptUrl [A, B] 0 0)
          = AttemptResult.transportFailure emsg := hA
      rw [show httpCall [A, B] r (fun _ url => f url) 0
          = httpCallAux [A, B] r (fun _ url => f url) 0 0 from rfl,
        httpCallAux_retry_transport [A, B] r (fun _ url => f url) 0 0 emsg hr0 hor0]
      have h3 : ¬ (1 < r ∧ retriable s = true) := by simp [hretr]
      have hor1 : (fun (_ : Nat) url => f url) 1 (attemptUrl [A, B] 0 1)
          = AttemptResult.response s bdy := hB
      rw [httpCallAux_terminal_response [A, B] r (fun _ url => f url) 0 1 s bdy hor1 h3,
        if_pos hok]
    · have h3 : ¬ (0 < r ∧ retriable s = true) := by simp [hretr]
      have hor0 : (fun (_ : Nat) url => f url) 0 (attemptUrl [A, B] 1 0)
          = AttemptResult.response s bdy := hB
      rw [show httpCall [A, B] r (fun _ url => f url) 1
          = httpCallAux [A, B] r (fun _ url => f url) 1 0 from rfl,
        httpCallAux_terminal_response [A, B] r (fun _ url => f url) 1 0 s bdy hor0 h3,
        if_pos hok]

/-- Witness for C6: endpoint a unreachable, endpoint b answering 200; the
call started at offset 0 with one retry succeeds with b's body. -/
theorem httpCall_targets_and_failover_witness :
    (httpCall [("a"), ("b")] 1
        (fun _ url => if url = ("a") then AttemptResult.transportFailure ("down")
          else AttemptResult.response 200 ("ok")) 0).1 = HttpOutcome.success ("ok") :=
  httpCall_targets_and_failover.2 ("a") ("b") ("down") ("ok") 200 1 0
    (fun url => if url = ("a") then AttemptResult.transportFailure ("down")
      else AttemptResult.response 200 ("ok"))
    (by decide) (by decide) (by decide) (by decide) (by decide)

/-- `CachedSchemaRegistryClient`'s mutable state (cachedSchemaRegistry.go):
`schemaCache map[int]*goavro.Codec` (id to codec, where a codec is modelled
by its schema text) and `schemaIdCache map[string]int` (schema text to id).
The locks guard the maps; in this sequential model each operation is atomic. -/
structure CachedSchemaRegistryClient where
  schemaCache : Nat → Option String
  schemaIdCache : String → Option Nat

/-- `NewCachedSchemaRegistryClient`: both caches start empty. -/
def NewCachedSchemaRegistryClient : CachedSchemaRegistryClient :=
  { schemaCache := fun _ => none, schemaIdCache := fun _ => none }

/-- `CachedSchemaRegistryClient.GetSchema`: read the schema cache; on a hit
return the cached codec; on a miss call the underlying
`SchemaRegistryClient.GetSchema` (the oracle `registry`), return its error
unchanged, or store and return its codec. The result is the returned value,
the state after the call, and the number of underlying registry calls
issued (0 or 1). -/
def CachedSchemaRegistryClient.GetSchema (registry : Nat → Except String String)
    (client : CachedSchemaRegistryClient) (id : Nat) :
    Except String String × CachedSchemaRegistryClient × Nat :=
  match client.schemaCache id with
  | some cachedResult => (Except.ok cachedResult, client, 0)
  | none =>
    match registry id with
    | Except.error e => (Except.error e, client, 1)
    | Except.ok codec =>
      (Except.ok codec,
        { schemaCache := fun j => if j = id then some codec else client.schemaCache j,
          schemaIdCache := client.schemaIdCache }, 1)

/-- `CachedSchemaRegistryClient.CreateSubject`: key the id cache on
`codec.Schema()` alone (`schemaJson`); on a hit return the cached id without
looking at the subject; on a miss call the underlying
`SchemaRegistryClient.CreateSubject` (the oracle `registryCreate`), return
its error unchanged, or store and return its id. Result, new state, and
number of underlying registry calls (0 or 1). -/
def CachedSchemaRegistryClient.CreateSubject
    (registryCreate : String → String → Except String Nat)
    (client : CachedSchemaRegistryClient) (subject : String) (codecSchema : String) :
    Except String Nat × CachedSchemaRegistryClient × Nat :=
  let schemaJson := codecSchema
  match client.schemaIdCache schemaJson with
  | some cachedResult => (Except.ok cachedResult, client, 0)
  | none =>
    match registryCreate subject codecSchema with
    | Except.error e => (Except.error e, client, 1)
    | Except.ok id =>
      (Except.ok id,
        { schemaCache := client.schemaCache,
          schemaIdCache := fun t => if t = schemaJson then some id
            else client.schemaIdCache t }, 1)

/-- Run a sequence of `GetSchema` calls (for arbitrary intervening ids),
threading the client state. -/
def runGetSchemas (registry : Nat → Except String String)
    (client : CachedSchemaRegistryClient) : List Nat → CachedSchemaRegistryClient
  | [] => client
  | id :: rest =>
      runGetSchemas registry (CachedSchemaRegistryClient.GetSchema registry client id).2.1 rest

lemma getSchema_preserves_entry (registry : Nat → Except String String)
    (client : CachedSchemaRegistryClient) (id j : Nat) (v : String)
    (h : client.schemaCache id = some v) :
    ((CachedSchemaRegistryClient.GetSchema registry client j).2.1).schemaCache id = some v := by
  unfold CachedSchemaRegistryClient.GetSchema
  rcases hc : client.schemaCache j with _ | w
  · rcases hr : registry j with e | codec
    · simpa using h
    · simp only []
      by_cases hji : id = j
      · subst hji
        rw [h] at hc
        cases hc
      · simpa [hji] using h
  · simpa using h

lemma runGetSchemas_preserves_entry (registry : Nat → Except String String)
    (id : Nat) (v : String) :
    ∀ (l : List Nat) (client : CachedSchemaRegistryClient),
      client.schemaCache id = some v →
      (runGetSchemas registry client l).schemaCache id = some v := by
  intro l
  induction l with
  | nil => intro client h; simpa [runGetSchemas] using h
  | cons j rest ih =>
      intro client h
      unfold runGetSchemas
      exact ih _ (getSchema_preserves_entry registry client id j v h)

lemma getSchema_hit (registry : Nat → Except String String)
    (client : CachedSchemaRegistryClient) (id : Nat) (v : String)
    (h : client.schemaCache id = some v) :
    CachedSchemaRegistryClient.GetSchema registry client id = (Except.ok v, client, 0) := by
  unfold CachedSchemaRegistryClient.GetSchema
  rw [h]

lemma getSchema_ok_caches (registry : Nat → Except String String)
    (client : CachedSchemaRegistryClient) (id : Nat) (v : String)
    (h : (CachedSchemaRegistryClient.GetSchema registry client id).1 = Except.ok v) :
    ((CachedSchemaRegistryClient.GetSchema registry client id).2.1).schemaCache id = some v := by
  unfold CachedSchemaRegistryClient.GetSchema at h ⊢
  rcases hc : client.schemaCache id with _ | w
  · rw [hc] at h
    rcases hr : registry id with e | codec
    · rw [hr] at h
      simp at h
    · rw [hr] at h
      simp at h ⊢
      exact h
  · rw [hc] at h
    simp at h ⊢
    rw [hc, h]

/-- C7: after one successful `GetSchema(id)` on the cached client, every
subsequent `GetSchema` call with the same `id` — regardless of any
intervening `GetSchema` calls on other ids and regardless of what the
registry would now answer — issues zero underlying registry calls, returns
the identical cached codec, and leaves the state unchanged. -/
theorem getSchema_cache_idempotent (registry registry2 : Nat → Except String String)
    (client : CachedSchemaRegistryClient) (id : Nat) (v : String) (others : List Nat)
    (h : (CachedSchemaRegistryClient.GetSchema registry client id).1 = Except.ok v) :
    CachedSchemaRegistryClient.GetSchema registry2
        (runGetSchemas registry
          (CachedSchemaRegistryClient.GetSchema registry client id).2.1 others) id =
      (Except.ok v,
        runGetSchemas registry
          (CachedSchemaRegistryClient.GetSchema registry client id).2.1 others, 0) := by
  have h1 := getSchema_ok_caches registry client id v h
  have h2 := runGetSchemas_preserves_entry registry id v others
    (CachedSchemaRegistryClient.GetSchema registry client id).2.1 h1
  exact getSchema_hit registry2 _ id v h2

/-- Witness for C7: empty caches, a registry answering schema text s1 for
id 1; after the first call and two intervening calls for other ids, the
call for id 1 is a pure cache hit even against a registry now answering s2. -/
theorem getSchema_cache_idempotent_witness :
    CachedSchemaRegistryClient.GetSchema (fun _ => Except.ok ("s2"))
        (runGetSchemas (fun _ => Except.ok ("s1"))
          (CachedSchemaRegistryClient.GetSchema (fun _ => Except.ok ("s1"))
            NewCachedSchemaRegistryClient 1).2.1 [2, 3]) 1 =
      (Except.ok ("s1"),
        runGetSchemas (fun _ => Except.ok ("s1"))
          (CachedSchemaRegistryClient.GetSchema (fun _ => Except.ok ("s1"))
            NewCachedSchemaRegistryClient 1).2.1 [2, 3], 0) :=
  getSchema_cache_idempotent (fun _ => Except.ok ("s1")) (fun _ => Except.ok ("s2"))
    NewCachedSchemaRegistryClient 1 ("s1") [2, 3] rfl

lemma createSubject_hit (registryCreate : String → String → Except String Nat)
    (client : CachedSchemaRegistryClient) (subject codecSchema : String) (id : Nat)
    (h : client.schemaIdCache codecSchema = some id) :
    CachedSchemaRegistryClient.CreateSubject registryCreate client subject codecSchema =
      (Except.ok id, client, 0) := by
  simp only [CachedSchemaRegistryClient.CreateSubject]
  rw [h]

lemma createSubject_ok_caches (registryCreate : String → String → Except String Nat)
    (client : CachedSchemaRegistryClient) (subject codecSchema : String) (id : Nat)
    (h : (CachedSchemaRegistryClient.CreateSubject registryCreate client subject
      codecSchema).1 = Except.ok id) :
    ((CachedSchemaRegistryClient.CreateSubject registryCreate client subject
      codecSchema).2.1).schemaIdCache codecSchema = some id := by
  simp only [CachedSchemaRegistryClient.CreateSubject] at h ⊢
  rcases hc : client.schemaIdCache codecSchema with _ | w
  · rw [hc] at h
    rcases hr : registryCreate subject codecSchema with e | rid
    · rw [hr] at h
      simp at h
    · rw [hr] at h
      simp at h ⊢
      exact h
  · rw [hc] at h
    simp at h ⊢
    rw [hc, h]

lemma createSubject_calls_le_one (registryCreate : String → String → Except String Nat)
    (client : CachedSchemaRegistryClient) (subject codecSchema : String) :
    (CachedSchemaRegistryClient.CreateSubject registryCreate client subject
      codecSchema).2.2 ≤ 1 := by
  simp only [CachedSchemaRegistryClient.CreateSubject]
  rcases hc : client.schemaIdCache codecSchema with _ | w
  · rcases hr : registryCreate subject codecSchema with e | rid <;> simp [hc, hr]
  · simp [hc]

/-- C8: when `CreateSubject(subject, codec)` succeeds with id `id`, calling
it again with the same subject and codec returns the same id, changes
nothing, issues zero further registry calls, and the two calls together
issue at most one registry call. -/
theorem createSubject_idempotent (registryCreate : String → String → Except String Nat)
    (client : CachedSchemaRegistryClient) (subject codecSchema : String) (id : Nat)
    (h : (CachedSchemaRegistryClient.CreateSubject registryCreate client subject
      codecSchema).1 = Except.ok id) :
    (CachedSchemaRegistryClient.CreateSubject registryCreate
        (CachedSchemaRegistryClient.CreateSubject registryCreate client subject
          codecSchema).2.1 subject codecSchema =
      (Except.ok id,
        (CachedSchemaRegistryClient.CreateSubject registryCreate client subject
          codecSchema).2.1, 0)) ∧
    (CachedSchemaRegistryClient.CreateSubject registryCreate client subject
        codecSchema).2.2 +
      (CachedSchemaRegistryClient.CreateSubject registryCreate
        (CachedSchemaRegistryClient.CreateSubject registryCreate client subject
          codecSchema).2.1 subject codecSchema).2.2 ≤ 1 := by
  have hcache := createSubject_ok_caches registryCreate client subject codecSchema id h
  have hsecond := createSubject_hit registryCreate _ subject codecSchema id hcache
  refine ⟨hsecond, ?_⟩
  have h1 := createSubject_calls_le_one registryCreate client subject codecSchema
  rw [hsecond]
  simpa using h1

/-- Witness for C8 with empty caches and a registry assigning id 7. -/
theorem createSubject_idempotent_witness :
    (CachedSchemaRegistryClient.CreateSubject (fun _ _ => Except.ok 7)
        (CachedSchemaRegistryClient.CreateSubject (fun _ _ => Except.ok 7)
          NewCachedSchemaRegistryClient ("t-value") ("sch")).2.1 ("t-value") ("sch") =
      (Except.ok 7,
        (CachedSchemaRegistryClient.CreateSubject (fun _ _ => Except.ok 7)
          NewCachedSchemaRegistryClient ("t-value") ("sch")).2.1, 0)) ∧
    (CachedSchemaRegistryClient.CreateSubject (fun _ _ => Except.ok 7)
        NewCachedSchemaRegistryClient ("t-value") ("sch")).2.2 +
      (CachedSchemaRegistryClient.CreateSubject (fun _ _ => Except.ok 7)
        (CachedSchemaRegistryClient.CreateSubject (fun _ _ => Except.ok 7)
          NewCachedSchemaRegistryClient ("t-value") ("sch")).2.1 ("t-value") ("sch")).2.2
      ≤ 1 :=
  createSubject_idempotent (fun _ _ => Except.ok 7) NewCachedSchemaRegistryClient
    ("t-value") ("sch") 7 rfl

/-- C10: after a successful `CreateSubject(s1, codec)`, a `CreateSubject`
for a different subject `s2` with the same codec is served entirely from
the id cache keyed by the schema text: it returns the id cached for the
codec, issues zero registry calls (the result does not depend on the
registry oracle at all), and never registers `s2`. -/
theorem createSubject_ignores_subject (registryCreate registryCreate2 :
      String → String → Except String Nat)
    (client : CachedSchemaRegistryClient) (s1 s2 codecSchema : String) (id : Nat)
    (hne : s1 ≠ s2)
    (h : (CachedSchemaRegistryClient.CreateSubject registryCreate client s1
      codecSchema).1 = Except.ok id) :
    CachedSchemaRegistryClient.CreateSubject registryCreate2
        (CachedSchemaRegistryClient.CreateSubject registryCreate client s1
          codecSchema).2.1 s2 codecSchema =
      (Except.ok id,
        (CachedSchemaRegistryClient.CreateSubject registryCreate client s1
          codecSchema).2.1, 0) := by
  have hcache := createSubject_ok_caches registryCreate client s1 codecSchema id h
  exact createSubject_hit registryCreate2 _ s2 codecSchema id hcache

/-- Witness for C10: distinct subjects t1-value and t2-value, same schema
text; the second call returns the cached id 9 against a registry oracle
that would answer differently. -/
theorem createSubject_ignores_subject_witness :
    CachedSchemaRegistryClient.CreateSubject (fun _ _ => Except.ok 13)
        (CachedSchemaRegistryClient.CreateSubject (fun _ _ => Except.ok 9)
          NewCachedSchemaRegistryClient ("t1-value") ("sch")).2.1 ("t2-value") ("sch") =
      (Except.ok 9,
        (CachedSchemaRegistryClient.CreateSubject (fun _ _ => Except.ok 9)
          NewCachedSchemaRegistryClient ("t1-value") ("sch")).2.1, 0) :=
  createSubject_ignores_subject (fun _ _ => Except.ok 9) (fun _ _ => Except.ok 13)
    NewCachedSchemaRegistryClient ("t1-value") ("t2-value") ("sch") 9
    (by decide) rfl

/-- `Message` from avroConsumer.go: the consumer-facing result. `Partition`
(int32) and `Offset` (int64) are modelled as `Int`. -/
structure Message where
  SchemaId : Int
  Topic : String
  Partition : Int
  Offset : Int
  Key : String
  Value : String
deriving DecidableEq, Repr

/-- Observable side effects of one iteration of `avroConsumer.Consume`'s
message branch, in invocation order: the user's error callback
(`callbacks.OnError`), the offset marking (`Consumer.MarkOffset`), and the
user's data callback (`callbacks.OnDataReceived`). -/
inductive ConsumeEvent where
  | onError : ConsumeEvent
  | markOffset : ConsumeEvent
  | onDataReceived : ConsumeEvent
deriving DecidableEq, Repr

/-- The message branch of the `Consume` loop (avroConsumer.go lines
102-112): `msg, err := ProcessAvroMsg(m)`; if `err != nil` the error
callback is invoked; then `MarkOffset` is called unconditionally; then, when
an `OnDataReceived` callback is set (`hasDataCb`), it is invoked (on the
error path with the zero-value `Message{}`). -/
def consumeMessageStep (res : Except String Message) (hasDataCb : Bool) :
    List ConsumeEvent :=
  (match res with
   | Except.error _ => [ConsumeEvent.onError]
   | Except.ok _ => [])
  ++ [ConsumeEvent.markOffset]
  ++ (if hasDataCb then [ConsumeEvent.onDataReceived] else [])

/-- One turn of the `select` in `Consume` (avroConsumer.go lines 100-117):
a signal returns from the loop; a closed channel read (`ok = false`) does
nothing and continues; a received message runs the message branch and
continues. Result: the emitted events and whether the loop continues. -/
inductive ConsumerInput where
  | received (ok : Bool) (res : Except String Message) : ConsumerInput
  | signal : ConsumerInput

def consumeLoopStep (input : ConsumerInput) (hasDataCb : Bool) :
    List ConsumeEvent × Bool :=
  match input with
  | ConsumerInput.signal => ([], false)
  | ConsumerInput.received false _ => ([], true)
  | ConsumerInput.received true res => (consumeMessageStep res hasDataCb, true)

/-- Counterexample to C9 as stated: for a record whose decoding fails, the
events are `[onError, markOffset, onDataReceived]` — the error callback
runs strictly before the offset is marked, so the offset is not marked
before the error callback is invoked. -/
theorem consume_mark_before_error_refuted :
    (consumeLoopStep (ConsumerInput.received true (Except.error ("decode failed"))) true).1 =
      [ConsumeEvent.onError, ConsumeEvent.markOffset, ConsumeEvent.onDataReceived] ∧
    ¬ ((consumeLoopStep (ConsumerInput.received true
          (Except.error ("decode failed"))) true).1.indexOf ConsumeEvent.markOffset <
        (consumeLoopStep (ConsumerInput.received true
          (Except.error ("decode failed"))) true).1.indexOf ConsumeEvent.onError) := by
  constructor
  · rfl
  · decide

/-- C9 (amended): for every record whose decoding or schema resolution
fails, the user's error callback is invoked first, then the offset is
marked — marking is never skipped — and the loop continues (the step does
not return). The data callback, when set, still fires afterwards with the
zero-value message. -/
theorem consume_error_path_order (emsg : String) (hasDataCb : Bool) :
    (consumeLoopStep (ConsumerInput.received true (Except.error emsg)) hasDataCb).2 = true ∧
    (consumeLoopStep (ConsumerInput.received true (Except.error emsg)) hasDataCb).1 =
      ConsumeEvent.onError :: ConsumeEvent.markOffset ::
        (if hasDataCb then [ConsumeEvent.onDataReceived] else []) ∧
    ConsumeEvent.markOffset ∈
      (consumeLoopStep (ConsumerInput.received true (Except.error emsg)) hasDataCb).1 := by
  refine ⟨rfl, rfl, ?_⟩
  simp [consumeLoopStep, consumeMessageStep]
